import Mathlib

/-!
Verification of the signals-relay trade-execution pipeline.

The Python source (signals_relay) is embedded shallowly over ℚ / ℤ:
float values become exact rationals, machine integers become ℤ, fallible
code returns Except/Option, and the stateful broker client becomes
explicit state passing.  Each definition names the source function it
embeds.
-/

namespace SignalsRelay

/-! ### Python rounding

Python's builtin round uses round-half-to-even (banker's rounding).
`bround x` is round(x) for a rational x; `pyround10 y` is round(y, 10),
i.e. rounding to the nearest multiple of 10⁻¹⁰ with ties to even. -/

/-- Python's builtin round to nearest integer, ties to even. -/
def bround (x : ℚ) : ℤ :=
  if x - ⌊x⌋ < 1/2 then ⌊x⌋
  else if 1/2 < x - ⌊x⌋ then ⌊x⌋ + 1
  else if ⌊x⌋ % 2 = 0 then ⌊x⌋ else ⌊x⌋ + 1

/-- Python's round(y, 10): round to ten decimal places, ties to even. -/
def pyround10 (y : ℚ) : ℚ := (bround (y * 10 ^ 10) : ℚ) / 10 ^ 10

/-- Embeds BybitBroker._quantize (broker/bybit.py:177-179):
round((round(val / step) * step), 10). -/
def quantize (val step : ℚ) : ℚ := pyround10 ((bround (val / step) : ℚ) * step)

/-- Embeds BybitBroker.quantize_price_qty (broker/bybit.py:181-187), with
the instrument's tick size and quantity step already resolved (the
resolution itself is embedded by instrumentInfo below):
price is quantized to the tick when present, quantity is quantized to the
lot step and then floored at one full step via max. -/
def quantizePriceQty (tick lot : ℚ) (price : Option ℚ) (qty : ℚ) :
    Option ℚ × ℚ :=
  (price.map (fun p => quantize p tick), max (quantize qty lot) lot)

/-! ### Facts about banker's rounding -/

theorem bround_intCast (k : ℤ) : bround (k : ℚ) = k := by
  norm_num [bround, Int.floor_intCast]

theorem abs_bround_sub_le (x : ℚ) : |(bround x : ℚ) - x| ≤ 1/2 := by
  have h0 : (⌊x⌋ : ℚ) ≤ x := Int.floor_le x
  have h1 : x < ⌊x⌋ + 1 := Int.lt_floor_add_one x
  rw [abs_le]
  unfold bround
  split_ifs with hlt hgt hev
  · constructor <;> push_cast <;> linarith
  · have hge := le_of_not_lt hlt
    constructor <;> push_cast <;> linarith
  · have hge := le_of_not_lt hlt
    have hle := le_of_not_lt hgt
    constructor <;> push_cast <;> linarith
  · have hge := le_of_not_lt hlt
    have hle := le_of_not_lt hgt
    constructor <;> push_cast <;> linarith

theorem bround_eq_of_abs_lt (x : ℚ) (k : ℤ) (h : |x - (k : ℚ)| < 1/2) :
    bround x = k := by
  rw [abs_lt] at h
  obtain ⟨h1, h2⟩ := h
  rcases le_or_lt (k : ℚ) x with hk | hk
  · have hf : ⌊x⌋ = k := by
      rw [Int.floor_eq_iff]
      refine ⟨hk, ?_⟩
      push_cast
      linarith
    unfold bround
    rw [hf, if_pos (by linarith)]
  · have hf : ⌊x⌋ = k - 1 := by
      rw [Int.floor_eq_iff]
      constructor <;> push_cast <;> linarith
    unfold bround
    rw [hf]
    have hnlt : ¬ (x - ((k - 1 : ℤ) : ℚ) < 1/2) := by push_cast; linarith
    have hgt : 1/2 < x - ((k - 1 : ℤ) : ℚ) := by push_cast; linarith
    rw [if_neg hnlt, if_pos hgt]
    omega

theorem bround_nonpos (x : ℚ) (hx : x ≤ 0) : bround x ≤ 0 := by
  have h := abs_bround_sub_le x
  rw [abs_le] at h
  by_contra hb
  push_neg at hb
  have h1 : (1 : ℚ) ≤ (bround x : ℚ) := by exact_mod_cast hb
  linarith [h.2]

/-- Requantizing a quantized value does not move it: the integer
round(q / step) for q = round(n·step, 10) recovers a multiplier whose
rounded product is the same grid point.  Three regimes: step above the
10⁻¹⁰ rounding grain, exactly the grain, and below it. -/
theorem bround_quantize_fix (step : ℚ) (hstep : 0 < step) (n : ℤ) :
    bround ((bround ((((bround ((n : ℚ) * step * 10 ^ 10) : ℤ) : ℚ) / 10 ^ 10) / step) : ℚ) * step * 10 ^ 10)
      = bround ((n : ℚ) * step * 10 ^ 10) := by
  have hs0 : step ≠ 0 := ne_of_gt hstep
  set k : ℤ := bround ((n : ℚ) * step * 10 ^ 10) with hk
  set m : ℤ := bround (((k : ℚ) / 10 ^ 10) / step) with hm
  have hk1 : |(k : ℚ) - (n : ℚ) * step * 10 ^ 10| ≤ 1/2 := abs_bround_sub_le _
  have hm1 : |(m : ℚ) - ((k : ℚ) / 10 ^ 10) / step| ≤ 1/2 := abs_bround_sub_le _
  rcases lt_trichotomy (step * 10 ^ 10) 1 with hlt | heq | hgt
  · apply bround_eq_of_abs_lt
    have hkey : (m : ℚ) * step * 10 ^ 10 - (k : ℚ)
        = ((m : ℚ) - ((k : ℚ) / 10 ^ 10) / step) * (step * 10 ^ 10) := by
      field_simp
      ring
    rw [hkey, abs_mul, abs_of_pos (by positivity : (0:ℚ) < step * 10 ^ 10)]
    have hb := mul_le_mul_of_nonneg_right hm1
      (le_of_lt (by positivity : (0:ℚ) < step * 10 ^ 10))
    calc |(m : ℚ) - ((k : ℚ) / 10 ^ 10) / step| * (step * 10 ^ 10)
        ≤ 1/2 * (step * 10 ^ 10) := hb
      _ < 1/2 := by linarith
  · have hker : ((k : ℚ) / 10 ^ 10) / step = (k : ℚ) := by
      rw [div_div, mul_comm ((10 : ℚ) ^ 10) step, heq, div_one]
    have hmk : m = k := by rw [hm, hker]; exact bround_intCast k
    rw [hmk]
    have hcol : (k : ℚ) * step * 10 ^ 10 = (k : ℚ) := by
      rw [mul_assoc, heq, mul_one]
    rw [hcol, bround_intCast]
  · have hmn : m = n := by
      apply bround_eq_of_abs_lt
      have hrw : ((k : ℚ) / 10 ^ 10) / step - (n : ℚ)
          = ((k : ℚ) - (n : ℚ) * step * 10 ^ 10) / (step * 10 ^ 10) := by
        field_simp
        ring
      rw [hrw, abs_div, abs_of_pos (by positivity : (0:ℚ) < step * 10 ^ 10),
        div_lt_iff (by positivity : (0:ℚ) < step * 10 ^ 10)]
      linarith
    rw [hmn, ← hk]

/-- C5: quantization as implemented by BybitBroker._quantize is
idempotent: quantize(quantize(x, step), step) = quantize(x, step) for
every value x and every positive step. -/
theorem quantize_idempotent (x step : ℚ) (hstep : 0 < step) :
    quantize (quantize x step) step = quantize x step := by
  unfold quantize pyround10
  rw [bround_quantize_fix step hstep (bround (x / step))]

/-- C5 witness: idempotence at x = 4/3, step = 1/10. -/
theorem quantize_idempotent_w :
    (0 : ℚ) < 1/10 ∧ quantize (quantize (4/3) (1/10)) (1/10) = quantize (4/3) (1/10) :=
  ⟨by norm_num, quantize_idempotent (4/3) (1/10) (by norm_num)⟩

/-- When the step sits on the 10⁻¹⁰ rounding grid (step = j·10⁻¹⁰ for an
integer j), the final round-to-ten-places is exact and quantize returns
the rounded multiplier times the step. -/
theorem quantize_grid_exact (j : ℤ) (hj : (j : ℚ) ≠ 0) (qty : ℚ) :
    quantize qty ((j : ℚ) / 10 ^ 10)
      = (bround (qty / ((j : ℚ) / 10 ^ 10)) : ℚ) * ((j : ℚ) / 10 ^ 10) := by
  unfold quantize pyround10
  have harg : (bround (qty / ((j : ℚ) / 10 ^ 10)) : ℚ) * ((j : ℚ) / 10 ^ 10) * 10 ^ 10
      = ((bround (qty / ((j : ℚ) / 10 ^ 10)) * j : ℤ) : ℚ) := by
    push_cast
    field_simp
  rw [harg, bround_intCast]
  push_cast
  field_simp

/-- C1 counterexample: the claim quantifies over every positive quantity
step, but for the dyadic step 2⁻⁴⁰ (an exactly representable float) the
quantity 110·2⁻⁴⁰ is quantized to 10⁻¹⁰, which is not an integer
multiple of the step. -/
theorem quantize_qty_multiple_cex :
    (0 : ℚ) < 1 / 2 ^ 40 ∧ (0 : ℚ) < 110 / 2 ^ 40 ∧
    ¬ ∃ c : ℤ, (quantizePriceQty (1/100) (1 / 2 ^ 40) none (110 / 2 ^ 40)).2
        = (c : ℚ) * (1 / 2 ^ 40) := by
  refine ⟨by norm_num, by norm_num, ?_⟩
  have hquant : quantize (110 / 2 ^ 40) (1 / 2 ^ 40) = 1 / 10 ^ 10 := by
    unfold quantize pyround10
    have e1 : (110 / 2 ^ 40 / (1 / 2 ^ 40) : ℚ) = ((110 : ℤ) : ℚ) := by norm_num
    rw [e1, bround_intCast]
    have e2 : ((110 : ℤ) : ℚ) * (1 / 2 ^ 40) * 10 ^ 10 = 537109375 / 536870912 := by
      norm_num
    have e3 : bround (537109375 / 536870912 : ℚ) = 1 := by
      apply bround_eq_of_abs_lt
      rw [abs_lt]
      constructor <;> norm_num
    rw [e2, e3]
    norm_num
  have hval : (quantizePriceQty (1/100) (1 / 2 ^ 40) none (110 / 2 ^ 40)).2
      = 1 / 10 ^ 10 := by
    show max (quantize (110 / 2 ^ 40) (1 / 2 ^ 40)) (1 / 2 ^ 40) = 1 / 10 ^ 10
    rw [hquant, max_eq_left (by norm_num)]
  rw [hval]
  rintro ⟨c, hc⟩
  have h2 : (c : ℚ) * 10 ^ 10 = 2 ^ 40 := by
    field_simp at hc
    linarith
  have h3 : (c : ℚ) * 10000000000 = 1099511627776 := by norm_num at h2 ⊢; linarith
  have h4 : c * 10000000000 = 1099511627776 := by exact_mod_cast h3
  omega

/-- C1 (amended): for every positive quantity step that is an integer
multiple of the 10⁻¹⁰ rounding grain (which covers every real exchange
step) and every positive input quantity, the quantity returned by
quantize_price_qty is at least one step and is an exact integer multiple
of the step. -/
theorem quantize_qty_ge_and_multiple (j : ℤ) (hj : 0 < j) (tick : ℚ)
    (price : Option ℚ) (qty : ℚ) (hq : 0 < qty) :
    (j : ℚ) / 10 ^ 10 ≤ (quantizePriceQty tick ((j : ℚ) / 10 ^ 10) price qty).2 ∧
    ∃ c : ℤ, (quantizePriceQty tick ((j : ℚ) / 10 ^ 10) price qty).2
        = (c : ℚ) * ((j : ℚ) / 10 ^ 10) := by
  refine ⟨le_max_right _ _, ?_⟩
  have hj0 : (j : ℚ) ≠ 0 := by
    have := ne_of_gt hj
    exact_mod_cast this
  show ∃ c : ℤ, max (quantize qty ((j : ℚ) / 10 ^ 10)) ((j : ℚ) / 10 ^ 10)
      = (c : ℚ) * ((j : ℚ) / 10 ^ 10)
  rcases le_total ((j : ℚ) / 10 ^ 10) (quantize qty ((j : ℚ) / 10 ^ 10)) with hle | hle
  · rw [max_eq_left hle, quantize_grid_exact j hj0 qty]
    exact ⟨bround (qty / ((j : ℚ) / 10 ^ 10)), rfl⟩
  · rw [max_eq_right hle]
    exact ⟨1, (one_mul _).symm⟩

/-- C1 witness: step = 10⁻⁴ (j = 1000000), qty = 4/3. -/
theorem quantize_qty_ge_and_multiple_w :
    (0 : ℤ) < 1000000 ∧ (0 : ℚ) < 4/3 ∧
    (((1000000 : ℤ) : ℚ) / 10 ^ 10
        ≤ (quantizePriceQty (1/100) (((1000000 : ℤ) : ℚ) / 10 ^ 10) none (4/3)).2 ∧
      ∃ c : ℤ, (quantizePriceQty (1/100) (((1000000 : ℤ) : ℚ) / 10 ^ 10) none (4/3)).2
        = (c : ℚ) * (((1000000 : ℤ) : ℚ) / 10 ^ 10)) :=
  ⟨by decide, by norm_num,
    quantize_qty_ge_and_multiple 1000000 (by decide) (1/100) none (4/3) (by norm_num)⟩

/-- C10: for a positive lot step, the quantity returned by
quantize_price_qty is at least one lot for every input quantity, and a
non-positive input quantity is silently floored to exactly one lot. -/
theorem quantize_qty_floor_at_lot (tick lot : ℚ) (hlot : 0 < lot)
    (price : Option ℚ) (qty : ℚ) :
    lot ≤ (quantizePriceQty tick lot price qty).2 ∧
    (qty ≤ 0 → (quantizePriceQty tick lot price qty).2 = lot) := by
  refine ⟨le_max_right _ _, fun hq => ?_⟩
  have h1 : qty / lot ≤ 0 := by
    rw [div_nonpos_iff]
    right
    exact ⟨hq, le_of_lt hlot⟩
  have h2 : bround (qty / lot) ≤ 0 := bround_nonpos _ h1
  have h3 : (bround (qty / lot) : ℚ) * lot ≤ 0 := by
    apply mul_nonpos_iff.mpr
    right
    exact ⟨by exact_mod_cast h2, le_of_lt hlot⟩
  have h4 : (bround (qty / lot) : ℚ) * lot * 10 ^ 10 ≤ 0 := by
    apply mul_nonpos_iff.mpr
    right
    exact ⟨h3, by norm_num⟩
  have h5 : bround ((bround (qty / lot) : ℚ) * lot * 10 ^ 10) ≤ 0 := bround_nonpos _ h4
  have h6 : quantize qty lot ≤ 0 := by
    unfold quantize pyround10
    rw [div_nonpos_iff]
    right
    exact ⟨by exact_mod_cast h5, by norm_num⟩
  show max (quantize qty lot) lot = lot
  exact max_eq_right (le_trans h6 (le_of_lt hlot))

/-- C10 witness: lot = 1/10, qty = −5 yields exactly one lot. -/
theorem quantize_qty_floor_at_lot_w :
    (0 : ℚ) < 1/10 ∧
    ((1/10 : ℚ) ≤ (quantizePriceQty (1/100) (1/10) none (-5)).2 ∧
      ((-5 : ℚ) ≤ 0 → (quantizePriceQty (1/100) (1/10) none (-5)).2 = 1/10)) :=
  ⟨by norm_num, quantize_qty_floor_at_lot (1/100) (1/10) (by norm_num) none (-5)⟩

/-! ### Time synchronization (BybitBroker._sync_time, broker/bybit.py:59-82) -/

/-- JSON payload of GET /v5/market/time as far as _sync_time inspects
it: an optional numeric top-level time field (milliseconds) and an
optional result object carrying optional timeNano / timeSecond fields.
A field that is absent or non-numeric is none. -/
structure TimePayload where
  time : Option ℤ := none
  timeNano : Option ℤ := none
  timeSecond : Option ℤ := none

/-- The elif chain of _sync_time (broker/bybit.py:65-73): prefer the
millisecond field, then nanoseconds truncated to milliseconds (Python
int() truncates toward zero, hence Int.tdiv), then seconds scaled up. -/
def extractServerMs (p : TimePayload) : Option ℤ :=
  match p.time with
  | some t => some t
  | none =>
    match p.timeNano with
    | some nano => some (Int.tdiv nano 1000000)
    | none =>
      match p.timeSecond with
      | some sec => some (sec * 1000)
      | none => none

/-- Mutable fields of BybitBroker touched by time sync: the clock offset
in milliseconds and the local timestamp (seconds) of the last successful
sync (broker/bybit.py:47-48). -/
structure BrokerState where
  time_offset_ms : ℤ
  last_sync_ts : ℚ
  deriving DecidableEq

/-- What one GET /v5/market/time attempt produced: a transport error, a
non-2xx status (raise_for_status), or a JSON payload. -/
inductive TimeSyncResponse
  | transportError
  | badStatus
  | payload (p : TimePayload)

/-- Embeds BybitBroker._sync_time (broker/bybit.py:59-82).  On a valid
nonzero server time the offset becomes server_ms − local_ms and the sync
timestamp is refreshed atomically with it; every failure — transport
error, bad status, unparseable payload or zero time (Python's
`not server_ms`) — is swallowed by the surrounding try/except and leaves
the state unchanged, which is why the return type is a plain BrokerState
rather than an Except. -/
def syncTime (st : BrokerState) (resp : TimeSyncResponse) (local_ms : ℤ)
    (now : ℚ) : BrokerState :=
  match resp with
  | .transportError => st
  | .badStatus => st
  | .payload p =>
    match extractServerMs p with
    | some server_ms =>
      if server_ms ≠ 0 then
        { time_offset_ms := server_ms - local_ms, last_sync_ts := now }
      else st
    | none => st

/-- Embeds the timestamp computation of BybitBroker._signed_headers
(broker/bybit.py:90): ts = _now_ms() + self._time_offset_ms, sent in
the X-BAPI-TIMESTAMP header of every signed request. -/
def signedTimestamp (st : BrokerState) (local_ms : ℤ) : ℤ :=
  local_ms + st.time_offset_ms

/-- C4: after a successful sync against server time s ms at local time
l ms the stored offset is exactly s − l, and every subsequently signed
request carries timestamp equal to the local time at signing plus that
offset. -/
theorem sync_offset_signed_timestamp (st : BrokerState) (p : TimePayload)
    (s l : ℤ) (now : ℚ) (hs : extractServerMs p = some s) (h0 : s ≠ 0) :
    (syncTime st (.payload p) l now).time_offset_ms = s - l ∧
    ∀ l2 : ℤ, signedTimestamp (syncTime st (.payload p) l now) l2 = l2 + (s - l) := by
  have hst : syncTime st (.payload p) l now
      = { time_offset_ms := s - l, last_sync_ts := now } := by
    simp only [syncTime, hs]
    rw [if_pos h0]
  rw [hst]
  exact ⟨rfl, fun l2 => rfl⟩

/-- C4 witness: server time 1000500 ms, local time 1000000 ms resolves
the offset to +500 and a later signing at local time 2000000 stamps
2000000 + 500. -/
theorem sync_offset_signed_timestamp_w :
    extractServerMs { time := some 1000500 } = some 1000500 ∧
    (1000500 : ℤ) ≠ 0 ∧
    signedTimestamp
      (syncTime ⟨0, 0⟩ (.payload { time := some 1000500 }) 1000000 7) 2000000
      = 2000000 + (1000500 - 1000000) :=
  ⟨rfl, by decide,
    (sync_offset_signed_timestamp ⟨0, 0⟩ { time := some 1000500 }
      1000500 1000000 7 rfl (by decide)).2 2000000⟩

/-- Failure taxonomy of one sync attempt: transport error, bad HTTP
status, a payload with no recognized time encoding, or server time zero
(falsy in Python, hence raised and then swallowed). -/
def syncAttemptFails : TimeSyncResponse → Prop
  | .transportError => True
  | .badStatus => True
  | .payload p => extractServerMs p = none ∨ extractServerMs p = some 0

/-- C8: a failed sync attempt raises nothing to its caller (syncTime is
a total function) and leaves the broker state — in particular the
stored clock offset — unchanged, so the previous offset remains in
effect for subsequent signing. -/
theorem sync_failure_preserves_state (st : BrokerState)
    (resp : TimeSyncResponse) (l : ℤ) (now : ℚ) (h : syncAttemptFails resp) :
    syncTime st resp l now = st := by
  cases resp with
  | transportError => rfl
  | badStatus => rfl
  | payload p => rcases h with h | h <;> simp [syncTime, h]

/-- C8 witness: a transport failure at offset 123 leaves the state at
offset 123. -/
theorem sync_failure_preserves_state_w :
    syncAttemptFails .transportError ∧
    syncTime ⟨123, 5⟩ .transportError 999 7 = ⟨123, 5⟩ :=
  ⟨True.intro, sync_failure_preserves_state ⟨123, 5⟩ .transportError 999 7 True.intro⟩

/-! ### Retry/resync protocol (BybitBroker._request, broker/bybit.py:114-151) -/

/-- One response observed by one attempt of the retry loop: a JSON
envelope with its retCode and (abstracted) result payload, or a
transport-level httpx error. -/
inductive AttemptResponse
  | json (retCode : ℤ) (result : ℕ)
  | transportError
  deriving DecidableEq

/-- How one logical call ends: the returned payload or a raised
RuntimeError, together with how many forced resyncs the loop performed
and how many attempts it consumed; pending marks an exhausted response
script (the loop would still be awaiting a next response). -/
inductive RequestOutcome
  | success (result : ℕ) (resyncs attempts : ℕ)
  | failure (resyncs attempts : ℕ)
  | pending
  deriving DecidableEq

/-- Embeds the while-loop of BybitBroker._request (broker/bybit.py:128-151)
run against a script of responses, one per attempt; tries and resyncs
accumulate the loop counter and the forced _sync_time calls.  retCode 0
returns the payload; 10002/10003 force exactly one resync and retry
while tries ≤ max_retries, failing terminally once the budget is
exceeded (the resync still happens on that final attempt, as in the
source where _sync_time runs before the budget check); any other retCode
fails terminally at once; a transport error retries within the same
budget without a resync. -/
def requestLoop (maxRetries tries resyncs : ℕ) :
    List AttemptResponse → RequestOutcome
  | [] => .pending
  | .json ret result :: rest =>
      if ret = 0 then .success result resyncs (tries + 1)
      else if ret = 10002 ∨ ret = 10003 then
        if tries + 1 ≤ maxRetries then
          requestLoop maxRetries (tries + 1) (resyncs + 1) rest
        else .failure (resyncs + 1) (tries + 1)
      else .failure resyncs (tries + 1)
  | .transportError :: rest =>
      if tries + 1 ≤ maxRetries then
        requestLoop maxRetries (tries + 1) resyncs rest
      else .failure resyncs (tries + 1)

/-- Embeds BybitBroker._request for one logical call (the periodic
pre-loop resync of broker/bybit.py:125-126 is the syncTime model above;
it is not forced by any response, so it is not counted here). -/
def request (maxRetries : ℕ) (script : List AttemptResponse) : RequestOutcome :=
  requestLoop maxRetries 0 0 script

/-- Running the loop into the budget boundary: n + 1 consecutive
timestamp-window responses starting at loop counter tries with
tries + n + 1 = maxRetries + 1 are all consumed, each forcing one
resync, and the call then fails without touching the rest of the
script. -/
theorem requestLoop_exhausts_budget (R : ℕ) (m : ℤ)
    (hm : m = 10002 ∨ m = 10003) (rest : List AttemptResponse) :
    ∀ n tries resyncs, tries + n + 1 = R + 1 →
      requestLoop R tries resyncs
          (List.replicate (n + 1) (.json m 0) ++ rest)
        = .failure (resyncs + n + 1) (tries + n + 1) := by
  have hm0 : ¬ (m = 0) := by rcases hm with h | h <;> omega
  intro n
  induction n with
  | zero =>
    intro tries resyncs h
    simp only [List.replicate_succ, List.replicate_zero, List.cons_append,
      List.nil_append, requestLoop]
    rw [if_neg hm0, if_pos hm, if_neg (by omega)]
  | succ n ih =>
    intro tries resyncs h
    have hrep : List.replicate (n + 1 + 1) (AttemptResponse.json m 0) ++ rest
        = .json m 0 :: (List.replicate (n + 1) (.json m 0) ++ rest) := by
      simp [List.replicate_succ]
    rw [hrep, requestLoop, if_neg hm0, if_pos hm, if_pos (by omega),
      ih (tries + 1) (resyncs + 1) (by omega)]
    have e1 : resyncs + 1 + n + 1 = resyncs + (n + 1) + 1 := by omega
    have e2 : tries + 1 + n + 1 = tries + (n + 1) + 1 := by omega
    rw [e1, e2]

/-- Running the loop through k retried timestamp-window responses into a
success, while the budget allows it: each error response forces one
resync and the success payload is returned on attempt tries + k + 1. -/
theorem requestLoop_success_run (R : ℕ) (m : ℤ) (p : ℕ)
    (hm : m = 10002 ∨ m = 10003) :
    ∀ k tries resyncs, tries + k ≤ R →
      requestLoop R tries resyncs
          (List.replicate k (.json m 0) ++ [.json 0 p])
        = .success p (resyncs + k) (tries + k + 1) := by
  have hm0 : ¬ (m = 0) := by rcases hm with h | h <;> omega
  intro k
  induction k with
  | zero =>
    intro tries resyncs h
    simp only [List.replicate_zero, List.nil_append, requestLoop]
    simp
  | succ k ih =>
    intro tries resyncs h
    have hrep : List.replicate (k + 1) (AttemptResponse.json m 0) ++ [.json 0 p]
        = .json m 0 :: (List.replicate k (.json m 0) ++ [.json 0 p]) := by
      simp [List.replicate_succ]
    rw [hrep, requestLoop, if_neg hm0, if_pos hm, if_pos (by omega),
      ih (tries + 1) (resyncs + 1) (by omega)]
    have e1 : resyncs + 1 + k = resyncs + (k + 1) := by omega
    have e2 : tries + 1 + k + 1 = tries + (k + 1) + 1 := by omega
    rw [e1, e2]

/-- C2 counterexample: with max_retries = 1, the claim as stated
predicts that one response with retCode 10002 (max_retries consecutive
such codes) already fails the call terminally with no further attempt;
the code instead resyncs once, retries, and returns the second
response's payload on attempt two. -/
theorem request_retry_budget_cex :
    request 1 [.json 10002 0, .json 0 7] = .success 7 1 2 := by decide

/-- C2 (amended): each response with retCode 10002 or 10003 triggers
exactly one forced resync before the retry; the call fails with a
terminal error only after max_retries + 1 consecutive such codes (the
initial attempt plus max_retries retries), consuming no response beyond
them, while up to max_retries such codes followed by a success still
return the payload. -/
theorem request_resync_retry (R k : ℕ) (m : ℤ) (p : ℕ)
    (hm : m = 10002 ∨ m = 10003) :
    (∀ rest, request R (List.replicate (R + 1) (.json m 0) ++ rest)
        = .failure (R + 1) (R + 1)) ∧
    (k ≤ R → request R (List.replicate k (.json m 0) ++ [.json 0 p])
        = .success p k (k + 1)) := by
  constructor
  · intro rest
    have h := requestLoop_exhausts_budget R m hm rest R 0 0 (by omega)
    simpa [request] using h
  · intro hk
    have h := requestLoop_success_run R m p hm k 0 0 (by omega)
    simpa [request] using h

/-- C2 witness: max_retries = 2; three consecutive 10002 codes fail the
call after three attempts and three resyncs, one such code followed by a
success returns payload 9 on attempt two after one resync. -/
theorem request_resync_retry_w :
    ((10002 : ℤ) = 10002 ∨ (10002 : ℤ) = 10003) ∧
    request 2 (List.replicate 3 (.json 10002 0) ++ [.json 0 9])
      = .failure 3 3 ∧
    ((1 : ℕ) ≤ 2 ∧
      request 2 (List.replicate 1 (.json 10002 0) ++ [.json 0 9])
        = .success 9 1 2) :=
  ⟨Or.inl rfl,
    (request_resync_retry 2 1 10002 9 (Or.inl rfl)).1 [.json 0 9],
    by decide,
    (request_resync_retry 2 1 10002 9 (Or.inl rfl)).2 (by decide)⟩

/-! ### Trading bus (bus.py) and models (models.py) -/

/-- Side enum of models.py. -/
inductive Side
  | long
  | short
  deriving DecidableEq

/-- TradeSignal dataclass of models.py: one normalized trading
instruction. -/
structure TradeSignal where
  symbol : String
  side : Side
  entry : ℚ
  stop : ℚ
  take : ℚ
  leverage : Option ℤ := none
  deriving DecidableEq

/-- Embeds `lev = s.leverage or self.default_leverage` (bus.py:73):
Python `or` falls back whenever the left operand is falsy, which for an
Optional[int] means None or 0. -/
def effectiveLeverage (override : Option ℤ) (defaultLev : ℤ) : ℤ :=
  match override with
  | some l => if l ≠ 0 then l else defaultLev
  | none => defaultLev

/-- Embeds TradingBus._calc_qty (bus.py:128-130):
(usdt_per_trade × leverage) / max(entry, 1e-9). -/
def calcQty (usdtPerTrade : ℚ) (entry : ℚ) (leverage : ℤ) : ℚ :=
  usdtPerTrade * leverage / max entry (1 / 10 ^ 9)

/-- The values TradingBus._handle_signal (bus.py:70-90) resolves from an
instruction before quantization: the effective leverage (passed to both
set_leverage and _calc_qty), the order side and type, and the raw
quantity. -/
structure OrderPlan where
  lev : ℤ
  sideStr : String
  orderType : String
  qty : ℚ
  deriving DecidableEq

/-- Embeds the leverage/side/order-type/quantity resolution of
TradingBus._handle_signal (bus.py:70-90). -/
def planSignal (defaultLev : ℤ) (usdtPerTrade : ℚ) (marketEntry : Bool)
    (s : TradeSignal) : OrderPlan :=
  let lev := effectiveLeverage s.leverage defaultLev
  { lev := lev
  , sideStr := if s.side = .short then "Sell" else "Buy"
  , orderType := if marketEntry then "Market" else "Limit"
  , qty := calcQty usdtPerTrade s.entry lev }

/-- A concrete instruction used by counterexamples and witnesses. -/
def sampleSignal (lev : Option ℤ) : TradeSignal :=
  { symbol := "SOLUSDT", side := .short, entry := 150, stop := 155,
    take := 140, leverage := lev }

/-- C6 counterexample: the parser can produce a leverage override of 0
(RE_LEV matches "lev 0"), and for such an instruction the handler uses
the configured default 20, not the carried override 0 — Python `or`
treats the 0 override as missing. -/
theorem effective_leverage_zero_cex :
    (sampleSignal (some 0)).leverage = some 0 ∧
    (planSignal 20 100 false (sampleSignal (some 0))).lev = 20 ∧
    (20 : ℤ) ≠ 0 :=
  ⟨rfl, rfl, by decide⟩

/-- C6 (amended): the effective leverage used for account preparation
and quantity computation equals the instruction's override whenever the
instruction carries a nonzero one; a zero override, like a missing one,
falls back to the configured default. -/
theorem effective_leverage_resolution (defaultLev : ℤ) (usdt : ℚ)
    (marketEntry : Bool) (s : TradeSignal) :
    (∀ l : ℤ, s.leverage = some l → l ≠ 0 →
      (planSignal defaultLev usdt marketEntry s).lev = l ∧
      (planSignal defaultLev usdt marketEntry s).qty = calcQty usdt s.entry l) ∧
    (s.leverage = none ∨ s.leverage = some 0 →
      (planSignal defaultLev usdt marketEntry s).lev = defaultLev ∧
      (planSignal defaultLev usdt marketEntry s).qty
        = calcQty usdt s.entry defaultLev) := by
  constructor
  · intro l hl hl0
    constructor <;> simp [planSignal, effectiveLeverage, hl, hl0]
  · rintro (hl | hl) <;>
      exact ⟨by simp [planSignal, effectiveLeverage, hl],
        by simp [planSignal, effectiveLeverage, hl]⟩

/-- C6 witness: a nonzero override 5 is used verbatim for leverage and
quantity. -/
theorem effective_leverage_resolution_w :
    (sampleSignal (some 5)).leverage = some 5 ∧ (5 : ℤ) ≠ 0 ∧
    ((planSignal 20 100 false (sampleSignal (some 5))).lev = 5 ∧
      (planSignal 20 100 false (sampleSignal (some 5))).qty
        = calcQty 100 (sampleSignal (some 5)).entry 5) :=
  ⟨rfl, by decide,
    (effective_leverage_resolution 20 100 false (sampleSignal (some 5))).1
      5 rfl (by decide)⟩

/-- The except-handler of TradingBus._worker (bus.py:61-66): a raised
exception is caught and logged, normal completion logs nothing. -/
def workerCatch (r : Except String Unit) : Option String :=
  match r with
  | .ok _ => none
  | .error e => some e

/-- Embeds TradingBus._worker (bus.py:58-66) over a finite snapshot of
the queue: each dequeued instruction is handled inside try/except, the
per-instruction error (if any) becomes a log record, task_done runs, and
the loop proceeds to the next item.  No handler exception escapes the
loop, which is why the result is a total list of per-item log
records. -/
def workerRun (handle : TradeSignal → Except String Unit) :
    List TradeSignal → List (Option String)
  | [] => []
  | s :: rest => workerCatch (handle s) :: workerRun handle rest

/-- C3: for every handler and every queue snapshot the worker processes
every instruction: one record per instruction, and the i-th record is
the caught outcome of handling the i-th instruction — an exception at
any position is contained at that position and every later instruction
is still processed. -/
theorem worker_isolates_failures (handle : TradeSignal → Except String Unit)
    (q : List TradeSignal) :
    (workerRun handle q).length = q.length ∧
    ∀ (i : ℕ) (s : TradeSignal), q[i]? = some s →
      (workerRun handle q)[i]? = some (workerCatch (handle s)) := by
  induction q with
  | nil =>
    refine ⟨rfl, ?_⟩
    intro i s h
    simp at h
  | cons a rest ih =>
    refine ⟨by simp [workerRun, ih.1], ?_⟩
    intro i s h
    cases i with
    | zero =>
      simp only [List.getElem?_cons_zero, Option.some_inj] at h
      subst h
      simp [workerRun]
    | succ n =>
      simp only [workerRun, List.getElem?_cons_succ] at h ⊢
      exact ih.2 n s h

/-- A concrete handler for the C3 witness: it raises on a zero-leverage
instruction and succeeds otherwise. -/
def failingHandler (s : TradeSignal) : Except String Unit :=
  if s.leverage = some 0 then .error "No instrument info for SOLUSDT"
  else .ok ()

/-- C3 witness: a two-element queue whose first handler invocation
raises; the second instruction is still processed and succeeds. -/
theorem worker_isolates_failures_w :
    (workerRun failingHandler [sampleSignal (some 0), sampleSignal none]).length
      = [sampleSignal (some 0), sampleSignal none].length ∧
    ([sampleSignal (some 0), sampleSignal none][1]? = some (sampleSignal none) ∧
      (workerRun failingHandler [sampleSignal (some 0), sampleSignal none])[1]?
        = some (workerCatch (failingHandler (sampleSignal none)))) :=
  ⟨(worker_isolates_failures failingHandler
      [sampleSignal (some 0), sampleSignal none]).1,
    rfl,
    (worker_isolates_failures failingHandler
      [sampleSignal (some 0), sampleSignal none]).2 1 (sampleSignal none) rfl⟩

/-! ### Instrument metadata cache (BybitBroker._instrument_info, broker/bybit.py:158-175) -/

/-- One row of the instruments-info response as far as the client reads
it: optional tickSize under priceFilter, optional qtyStep under
lotSizeFilter. -/
structure InstrumentRow where
  tickSize : Option ℚ := none
  qtyStep : Option ℚ := none

/-- Lookup in the broker's per-symbol cache self._instruments
(broker/bybit.py:49, 159-160). -/
def cacheLookup (cache : List (String × ℚ × ℚ)) (symbol : String) :
    Option (ℚ × ℚ) :=
  match cache.find? (fun e => e.1 == symbol) with
  | some e => some e.2
  | none => none

/-- Result of one _instrument_info call: the returned pair or the raised
RuntimeError, the cache afterwards, and whether the exchange lookup was
issued. -/
structure InstrumentInfoResult where
  value : Except String (ℚ × ℚ)
  cache : List (String × ℚ × ℚ)
  queried : Bool

/-- Embeds BybitBroker._instrument_info (broker/bybit.py:158-175): a
cached symbol is answered without any lookup; otherwise the lookup is
issued once — an empty row list (res.get("list") or []) raises
"No instrument info" storing nothing and retrying nothing, a nonempty
one reads the first row with fallback defaults tickSize 10⁻⁴ and
qtyStep 10⁻³ and stores the pair. -/
def instrumentInfo (cache : List (String × ℚ × ℚ)) (symbol : String)
    (rows : List InstrumentRow) : InstrumentInfoResult :=
  match cacheLookup cache symbol with
  | some tl => ⟨.ok tl, cache, false⟩
  | none =>
    match rows with
    | [] => ⟨.error ("No instrument info for " ++ symbol), cache, true⟩
    | row :: _ =>
      let tick := row.tickSize.getD (1 / 10 ^ 4)
      let lot := row.qtyStep.getD (1 / 10 ^ 3)
      ⟨.ok (tick, lot), (symbol, tick, lot) :: cache, true⟩

/-- C7: when the exchange returns an empty result list for an uncached
symbol, the call fails with the "No instrument info" error raised to
the caller from that single lookup, the cache is left unchanged, and a
later call for the same symbol issues the lookup again. -/
theorem instrument_info_empty_no_cache (cache : List (String × ℚ × ℚ))
    (symbol : String) (h : cacheLookup cache symbol = none) :
    (instrumentInfo cache symbol []).value
      = .error ("No instrument info for " ++ symbol) ∧
    (instrumentInfo cache symbol []).cache = cache ∧
    (instrumentInfo cache symbol []).queried = true ∧
    ∀ rows2, (instrumentInfo (instrumentInfo cache symbol []).cache
        symbol rows2).queried = true := by
  have hbase : instrumentInfo cache symbol []
      = ⟨.error ("No instrument info for " ++ symbol), cache, true⟩ := by
    simp [instrumentInfo, h]
  rw [hbase]
  refine ⟨rfl, rfl, rfl, ?_⟩
  intro rows2
  cases rows2 with
  | nil => simp [instrumentInfo, h]
  | cons r rs => simp [instrumentInfo, h]

/-- C7 witness: empty cache, symbol BTCUSDT, empty lookup result; the
follow-up call is checked against a nonempty lookup. -/
theorem instrument_info_empty_no_cache_w :
    cacheLookup [] "BTCUSDT" = none ∧
    ((instrumentInfo [] "BTCUSDT" []).value
        = .error ("No instrument info for " ++ "BTCUSDT") ∧
      (instrumentInfo [] "BTCUSDT" []).cache = [] ∧
      (instrumentInfo [] "BTCUSDT" []).queried = true ∧
      (instrumentInfo (instrumentInfo [] "BTCUSDT" []).cache "BTCUSDT"
          [{ tickSize := some (1/2) }]).queried = true) :=
  ⟨rfl,
    (instrument_info_empty_no_cache [] "BTCUSDT" rfl).1,
    (instrument_info_empty_no_cache [] "BTCUSDT" rfl).2.1,
    (instrument_info_empty_no_cache [] "BTCUSDT" rfl).2.2.1,
    (instrument_info_empty_no_cache [] "BTCUSDT" rfl).2.2.2
      [{ tickSize := some (1/2) }]⟩

/-! ### Numeric normalization (utils.py, normalize_number) -/

/-- Whitespace scrubbed by re.sub(r"\s+", "", t) in utils.py:17: ASCII
whitespace plus the unicode space separators Python \s matches
(including NBSP, thin space and narrow no-break space, which the docs of
the source call out). -/
def isPySpace (c : Char) : Bool :=
  c == ' ' || c == '\t' || c == '\n' || c == '\r' || c == '\x0b' ||
  c == '\x0c' || c == '\x1c' || c == '\x1d' || c == '\x1e' || c == '\x1f' ||
  c == '\u0085' || c == ' ' || c == ' ' ||
  (0x2000 ≤ c.toNat && c.toNat ≤ 0x200a) ||
  c == ' ' || c == ' ' || c == ' ' || c == ' ' ||
  c == '　'

/-- Value of a run of decimal digit characters. -/
def digitsVal (l : List Char) : ℕ :=
  l.foldl (fun acc c => 10 * acc + (c.toNat - 48)) 0

/-- Python float() on an unsigned cleaned string, split into mantissa
and number of decimal places: digits with at most one dot and at least
one digit. -/
def parseMag (l : List Char) : Option (ℕ × ℕ) :=
  if l.all (fun c => c.isDigit || c == '.') then
    match l.splitOn '.' with
    | [intp] => if intp.isEmpty then none else some (digitsVal intp, 0)
    | [intp, frac] =>
      if intp.isEmpty && frac.isEmpty then none
      else some (digitsVal intp * 10 ^ frac.length + digitsVal frac, frac.length)
    | _ => none
  else none

/-- Python float() on the cleaned string, as signed mantissa and number
of decimal places (the value is mantissa / 10^places). -/
def parseParts (l : List Char) : Option (ℤ × ℕ) :=
  match l with
  | '-' :: rest => (parseMag rest).map (fun p => (-(p.1 : ℤ), p.2))
  | _ => (parseMag l).map (fun p => ((p.1 : ℤ), p.2))

/-- The string pipeline of normalize_number (utils.py:6-37): scrub all
whitespace; with both ',' and '.' present the last-occurring one is the
decimal separator (utils.py:20-26, rfind comparison done here from the
end of the reversed list), with at most one kind present a comma becomes
a dot; keep only digits, dot and minus; reject the degenerate strings
the source rejects; read the number. -/
def normalizeParts (text : String) : Option (ℤ × ℕ) :=
  let t0 := text.toList.filter (fun c => !(isPySpace c))
  let t1 :=
    if t0.contains ',' && t0.contains '.' then
      if t0.reverse.indexOf ',' < t0.reverse.indexOf '.' then
        (t0.filter (fun c => !(c == '.'))).map (fun c => if c == ',' then '.' else c)
      else t0.filter (fun c => !(c == ','))
    else t0.map (fun c => if c == ',' then '.' else c)
  let t2 := t1.filter (fun c => c.isDigit || c == '.' || c == '-')
  if t2 = [] ∨ t2 = ['-'] ∨ t2 = ['.'] ∨ t2 = ['-', '.'] ∨ t2 = ['.', '-'] then
    none
  else parseParts t2

/-- Numeric value of a (mantissa, decimal places) pair. -/
def ratOfParts (p : ℤ × ℕ) : ℚ := (p.1 : ℚ) / 10 ^ p.2

/-- Embeds normalize_number (utils.py:6-37) over ℚ, with Python float()
idealized as exact decimal reading; a ValueError becomes none. -/
def normalize_number (text : String) : Option ℚ :=
  (normalizeParts text).map ratOfParts

/-- C9: numeric normalization maps "1 234,56" and "1,234.56" to 1234.56
and "2.123" and "2,123" to 2.123 — a single comma is the decimal
separator, and with both comma and dot present the last-occurring one
is. -/
theorem normalize_number_examples :
    normalize_number "1 234,56" = some (123456 / 100) ∧
    normalize_number "1,234.56" = some (123456 / 100) ∧
    normalize_number "2.123" = some (2123 / 1000) ∧
    normalize_number "2,123" = some (2123 / 1000) := by
  have h1 : normalizeParts "1 234,56" = some (123456, 2) := by decide
  have h2 : normalizeParts "1,234.56" = some (123456, 2) := by decide
  have h3 : normalizeParts "2.123" = some (2123, 3) := by decide
  have h4 : normalizeParts "2,123" = some (2123, 3) := by decide
  refine ⟨?_, ?_, ?_, ?_⟩ <;>
    simp only [normalize_number, h1, h2, h3, h4, Option.map_some] <;>
    norm_num [ratOfParts]

end SignalsRelay
